import Mathlib

/-!
Verification of the ColorLab color-conversion library.

This file gives a shallow embedding of the conversion code in
`src/colorspaces/` over the real numbers (f64 arithmetic is modelled by
exact real arithmetic; every decimal literal is read exactly).  Each
Rust `struct` becomes a Lean structure, each `to_color` / `from_color`
implementation becomes a Lean function, and every branch, epsilon guard
and constant is transcribed from the source.  Theorems about the claims
C1 - C10 follow the definitions.
-/

noncomputable section

namespace ColorLab

/-- Pivot color type from `color.rs`: linear-light RGBA scalars. -/
structure Color where
  r : ℝ
  g : ℝ
  b : ℝ
  a : ℝ

/-- Shared epsilon threshold `1e-10` used by the guards in the source. -/
def EPSILON : ℝ := 1e-10

/-- Clamp helper from `oklab.rs` (also the behavior of Rust `f64::clamp`
used in `hwb.rs`): if below the bound return it, if above return it,
otherwise return the value. -/
def clampf (val lo hi : ℝ) : ℝ :=
  if val < lo then lo else if val > hi then hi else val

/-- Rust `f64::atan2`: `b.atan2(a)` is the angle of the point `(a, b)`,
modelled by the complex argument of `a + b i`, which lies in `(-pi, pi]`. -/
def atan2 (y x : ℝ) : ℝ := Complex.arg ⟨x, y⟩

/-- Rust `f64::to_degrees`. -/
def toDegrees (x : ℝ) : ℝ := x * (180 / Real.pi)

/-- Rust `f64::to_radians`. -/
def toRadians (x : ℝ) : ℝ := x * (Real.pi / 180)

/-- Final hue normalization `if h < 0.0 { h + 360.0 } else { h }` used by
`hsv.rs`, `lch.rs` and `oklch.rs`. -/
def wrapHue (h : ℝ) : ℝ := if h < 0 then h + 360 else h

/-- Rust truncated division used by the `%` remainder on `f64`:
rounding the quotient toward zero. -/
def truncR (x : ℝ) : ℤ := if 0 ≤ x then ⌊x⌋ else ⌈x⌉

/-- Rust `%` on `f64` (remainder with the sign of the dividend):
`x % y = x - y * trunc (x / y)`. -/
def rustRem (x y : ℝ) : ℝ := x - y * (truncR (x / y) : ℝ)

/-- Maximum channel `c.r.max(c.g).max(c.b)` as in `hsl.rs` / `hsv.rs`. -/
def maxC (c : Color) : ℝ := max (max c.r c.g) c.b

/-- Minimum channel `c.r.min(c.g).min(c.b)`. -/
def minC (c : Color) : ℝ := min (min c.r c.g) c.b

/-! ### sRGB (`srgb.rs`) -/

/-- Gamma-encoded sRGB value. -/
structure Srgb where
  r : ℝ
  g : ℝ
  b : ℝ
  a : ℝ

/-- Transfer decode `srgb_to_linear` from `srgb.rs`. -/
def srgb_to_linear (c : ℝ) : ℝ :=
  if c ≤ 0.04045 then c / 12.92 else ((c + 0.055) / 1.055) ^ (2.4 : ℝ)

/-- Transfer encode `linear_to_srgb` from `srgb.rs`. -/
def linear_to_srgb (c : ℝ) : ℝ :=
  if c ≤ 0.0031308 then 12.92 * c else 1.055 * c ^ ((1 : ℝ) / 2.4) - 0.055

/-- Conversion `Srgb::to_color`. -/
def Srgb.to_color (v : Srgb) : Color :=
  ⟨srgb_to_linear v.r, srgb_to_linear v.g, srgb_to_linear v.b, v.a⟩

/-- Conversion `Srgb::from_color`. -/
def Srgb.from_color (c : Color) : Srgb :=
  ⟨linear_to_srgb c.r, linear_to_srgb c.g, linear_to_srgb c.b, c.a⟩

/-! ### HSL (`hsl.rs`) -/

/-- HSL record. -/
structure Hsl where
  h : ℝ
  s : ℝ
  l : ℝ
  a : ℝ

/-- Helper `hue_to_rgb` from `hsl.rs` (the two `t` adjustments are the
source's in-place mutations). -/
def hue_to_rgb (p q t : ℝ) : ℝ :=
  let t1 := if t < 0 then t + 1 else t
  let t2 := if t1 > 1 then t1 - 1 else t1
  if t2 < 1 / 6 then p + (q - p) * 6 * t2
  else if t2 < 1 / 2 then q
  else if t2 < 2 / 3 then p + (q - p) * (2 / 3 - t2) * 6
  else p

/-- Conversion `Hsl::to_color` (the source computes `q` by cases on
`l < 0.5` and always sets `p = 2 l - q`). -/
def Hsl.to_color (v : Hsl) : Color :=
  let h := v.h / 360
  let q := if v.l < 0.5 then v.l * (1 + v.s) else v.l + v.s - v.l * v.s
  let p := 2 * v.l - q
  ⟨hue_to_rgb p q (h + 1 / 3), hue_to_rgb p q h, hue_to_rgb p q (h - 1 / 3), v.a⟩

/-- Hue and saturation pair computed by `Hsl::from_color`: the achromatic
guard `max == min || d.abs() < EPSILON` yields `(0, 0)`, otherwise the
saturation branches on `l > 0.5` and the hue on which channel is maximal. -/
def hslHS (c : Color) : ℝ × ℝ :=
  let mx := maxC c
  let mn := minC c
  let l := (mx + mn) / 2
  let d := mx - mn
  if mx = mn ∨ |d| < EPSILON then (0, 0)
  else
    ((if mx = c.r then ((c.g - c.b) / d + if c.g < c.b then 6 else 0) / 6
      else if mx = c.g then ((c.b - c.r) / d + 2) / 6
      else ((c.r - c.g) / d + 4) / 6) * 360,
     if l > 0.5 then d / (2 - mx - mn) else d / (mx + mn))

/-- Conversion `Hsl::from_color`. -/
def Hsl.from_color (c : Color) : Hsl :=
  ⟨(hslHS c).1, (hslHS c).2, (maxC c + minC c) / 2, c.a⟩

/-- Safety predicate for the divisions executed by `Hsl::from_color`:
either the achromatic guard fires (no saturation division is executed,
and the hue divisions by `d` are protected since `|d| ≥ EPSILON` in the
other branch), or the executed saturation denominator is nonzero. -/
def Hsl.fromColorDivSafe (c : Color) : Prop :=
  let mx := maxC c
  let mn := minC c
  (mx = mn ∨ |mx - mn| < EPSILON) ∨
    (if (mx + mn) / 2 > 0.5 then 2 - mx - mn ≠ 0 else mx + mn ≠ 0)

/-! ### HSV (`hsv.rs`) -/

/-- HSV record. -/
structure Hsv where
  h : ℝ
  s : ℝ
  v : ℝ
  a : ℝ

/-- The RGB triple of `Hsv::to_color`: sector lookup on
`i.rem_euclid(6)` with `i = floor(h/60)`. -/
def Hsv.rgbTriple (x : Hsv) : ℝ × ℝ × ℝ :=
  let h := x.h / 60
  let i : ℤ := ⌊h⌋
  let f := h - (i : ℝ)
  let p := x.v * (1 - x.s)
  let q := x.v * (1 - x.s * f)
  let t := x.v * (1 - x.s * (1 - f))
  if i % 6 = 0 then (x.v, t, p)
  else if i % 6 = 1 then (q, x.v, p)
  else if i % 6 = 2 then (p, x.v, t)
  else if i % 6 = 3 then (p, q, x.v)
  else if i % 6 = 4 then (t, p, x.v)
  else (x.v, p, q)

/-- Conversion `Hsv::to_color`. -/
def Hsv.to_color (x : Hsv) : Color :=
  ⟨(Hsv.rgbTriple x).1, (Hsv.rgbTriple x).2.1, (Hsv.rgbTriple x).2.2, x.a⟩

/-- Hue of `Hsv::from_color` before the final negative correction:
`0` when `d == 0`, otherwise `60` times the branch value, where the
`max == r` branch applies the Rust `%` remainder by `6.0`. -/
def Hsv.rawHue (c : Color) : ℝ :=
  let mx := maxC c
  let mn := minC c
  let d := mx - mn
  if d = 0 then 0
  else
    60 * (if mx = c.r then rustRem ((c.g - c.b) / d) 6
          else if mx = c.g then (c.b - c.r) / d + 2
          else (c.r - c.g) / d + 4)

/-- Conversion `Hsv::from_color`. -/
def Hsv.from_color (c : Color) : Hsv :=
  ⟨wrapHue (Hsv.rawHue c),
   if maxC c ≠ 0 then (maxC c - minC c) / maxC c else 0,
   maxC c, c.a⟩

/-! ### HWB (`hwb.rs`) -/

/-- HWB record. -/
structure Hwb where
  h : ℝ
  w : ℝ
  b : ℝ
  a : ℝ

/-- Conversion `Hwb::to_color`: whiteness and blackness are clamped to
`[0,1]`; a sum at least `1` yields the achromatic gray with the epsilon
floor on the denominator; otherwise the value is routed through HSV. -/
def Hwb.to_color (v : Hwb) : Color :=
  let w := clampf v.w 0 1
  let bl := clampf v.b 0 1
  let sum := w + bl
  if 1 ≤ sum then
    let denom := if |sum| < EPSILON then EPSILON else sum
    let gray := w / denom
    ⟨gray, gray, gray, v.a⟩
  else
    let vv := 1 - bl
    let s := if vv > EPSILON then 1 - w / vv else 0
    Hsv.to_color ⟨v.h, s, vv, v.a⟩

/-- Conversion `Hwb::from_color`. -/
def Hwb.from_color (c : Color) : Hwb :=
  ⟨(Hsv.from_color c).h, minC c, 1 - maxC c, (Hsv.from_color c).a⟩

/-! ### CIE XYZ (`xyz.rs`) -/

/-- XYZ record. -/
structure Xyz where
  x : ℝ
  y : ℝ
  z : ℝ
  alpha : ℝ

/-- Conversion `Xyz::to_color`. -/
def Xyz.to_color (v : Xyz) : Color :=
  ⟨3.2406 * v.x - 1.5372 * v.y - 0.4986 * v.z,
   -0.9689 * v.x + 1.8758 * v.y + 0.0415 * v.z,
   0.0557 * v.x - 0.2040 * v.y + 1.0570 * v.z, v.alpha⟩

/-- Conversion `Xyz::from_color`. -/
def Xyz.from_color (c : Color) : Xyz :=
  ⟨0.4124 * c.r + 0.3576 * c.g + 0.1805 * c.b,
   0.2126 * c.r + 0.7152 * c.g + 0.0722 * c.b,
   0.0193 * c.r + 0.1192 * c.g + 0.9505 * c.b, c.a⟩

/-! ### CIE Lab (`lab.rs`) -/

/-- Lab record. -/
structure Lab where
  l : ℝ
  a : ℝ
  b : ℝ
  alpha : ℝ

/-- D65 reference white, X component. -/
def XN : ℝ := 0.95047

/-- D65 reference white, Y component. -/
def YN : ℝ := 1.0

/-- D65 reference white, Z component. -/
def ZN : ℝ := 1.08883

/-- Nonlinearity `f` from `lab.rs`: cube root above `(6/29)^3` (with the
inner near-zero guard), linear below. -/
def labF (t : ℝ) : ℝ :=
  if ((6 : ℝ) / 29) ^ (3 : ℕ) < t then
    (if |t| < 1e-10 then 0 else t ^ ((1 : ℝ) / 3))
  else (1 / 3) * ((29 : ℝ) / 6) ^ (2 : ℕ) * t + 4 / 29

/-- Inverse nonlinearity `f_inv` from `lab.rs`: cube above `6/29` (with
the inner near-zero guard), linear below. -/
def labFInv (u : ℝ) : ℝ :=
  if (6 : ℝ) / 29 < u then
    (if |u| < 1e-10 then 0 else u ^ (3 : ℕ))
  else 3 * ((6 : ℝ) / 29) ^ (2 : ℕ) * (u - 4 / 29)

/-- Value `x` computed by `Lab::from_color` (fixed linear-sRGB to XYZ row). -/
def labX (c : Color) : ℝ := 0.4124 * c.r + 0.3576 * c.g + 0.1805 * c.b

/-- Value `y` computed by `Lab::from_color`. -/
def labY (c : Color) : ℝ := 0.2126 * c.r + 0.7152 * c.g + 0.0722 * c.b

/-- Value `z` computed by `Lab::from_color`. -/
def labZ (c : Color) : ℝ := 0.0193 * c.r + 0.1192 * c.g + 0.9505 * c.b

/-- Conversion `Lab::from_color`. -/
def Lab.from_color (c : Color) : Lab :=
  ⟨116 * labF (labY c / YN) - 16,
   500 * (labF (labX c / XN) - labF (labY c / YN)),
   200 * (labF (labY c / YN) - labF (labZ c / ZN)), c.a⟩

/-- Value `fy` computed by `Lab::to_color`. -/
def Lab.fyv (v : Lab) : ℝ := (v.l + 16) / 116

/-- Value `fx` computed by `Lab::to_color`. -/
def Lab.fxv (v : Lab) : ℝ := Lab.fyv v + v.a / 500

/-- Value `fz` computed by `Lab::to_color`. -/
def Lab.fzv (v : Lab) : ℝ := Lab.fyv v - v.b / 200

/-- Conversion `Lab::to_color` (XYZ reconstruction then the fixed
XYZ to linear-sRGB matrix). -/
def Lab.to_color (v : Lab) : Color :=
  let x := XN * labFInv (Lab.fxv v)
  let y := YN * labFInv (Lab.fyv v)
  let z := ZN * labFInv (Lab.fzv v)
  ⟨3.2406 * x - 1.5372 * y - 0.4986 * z,
   -0.9689 * x + 1.8758 * y + 0.0415 * z,
   0.0557 * x - 0.2040 * y + 1.0570 * z, v.alpha⟩

/-! ### LCh (`lch.rs`) -/

/-- LCh record. -/
structure Lch where
  l : ℝ
  c : ℝ
  h : ℝ
  a : ℝ

/-- Conversion `Lch::to_color`: polar to rectangular with the chroma
epsilon guard, then through `Lab::to_color`. -/
def Lch.to_color (v : Lch) : Color :=
  let h_rad := toRadians v.h
  let c := if |v.c| < 1e-10 then 0 else v.c
  Lab.to_color ⟨v.l, c * Real.cos h_rad, c * Real.sin h_rad, v.a⟩

/-- Conversion `Lch::from_color`: through `Lab::from_color`, chroma as
the Euclidean norm, hue via `atan2` in degrees with the chroma epsilon
guard and the final negative correction. -/
def Lch.from_color (c : Color) : Lch :=
  let lab := Lab.from_color c
  let c_val := Real.sqrt (lab.a * lab.a + lab.b * lab.b)
  let h := if |c_val| < 1e-10 then 0 else toDegrees (atan2 lab.b lab.a)
  ⟨lab.l, c_val, wrapHue h, lab.alpha⟩

/-! ### CIE Luv (`luv.rs`) -/

/-- Luv record. -/
structure Luv where
  l : ℝ
  u : ℝ
  v : ℝ
  alpha : ℝ

/-- Chromaticity helper `u_prime` from `luv.rs` with its epsilon guard. -/
def uPrime (x y z : ℝ) : ℝ :=
  if |x + 15 * y + 3 * z| < EPSILON then 0 else 4 * x / (x + 15 * y + 3 * z)

/-- Chromaticity helper `v_prime` from `luv.rs` with its epsilon guard. -/
def vPrime (x y z : ℝ) : ℝ :=
  if |x + 15 * y + 3 * z| < EPSILON then 0 else 9 * y / (x + 15 * y + 3 * z)

/-- Conversion `Luv::to_color`. -/
def Luv.to_color (val : Luv) : Color :=
  let up_ref := uPrime XN YN ZN
  let vp_ref := vPrime XN YN ZN
  let yr := if 8 < val.l then ((val.l + 16) / 116) ^ (3 : ℕ) else val.l / 903.3
  let up := if |val.l| < EPSILON then up_ref else val.u / (13 * val.l) + up_ref
  let vp := if |val.l| < EPSILON then vp_ref else val.v / (13 * val.l) + vp_ref
  let vp_denom := max (|4 * vp|) EPSILON
  let x := yr * 9 * up / vp_denom
  let y := yr
  let z := yr * (12 - 3 * up - 20 * vp) / vp_denom
  ⟨3.2406 * x - 1.5372 * y - 0.4986 * z,
   -0.9689 * x + 1.8758 * y + 0.0415 * z,
   0.0557 * x - 0.2040 * y + 1.0570 * z, val.alpha⟩

/-- Conversion `Luv::from_color`. -/
def Luv.from_color (c : Color) : Luv :=
  let x := 0.4124 * c.r + 0.3576 * c.g + 0.1805 * c.b
  let y := 0.2126 * c.r + 0.7152 * c.g + 0.0722 * c.b
  let z := 0.0193 * c.r + 0.1192 * c.g + 0.9505 * c.b
  let yr := y / YN
  let l := if 0.008856 < yr then 116 * yr ^ ((1 : ℝ) / 3) - 16 else 903.3 * yr
  ⟨l, 13 * l * (uPrime x y z - uPrime XN YN ZN),
   13 * l * (vPrime x y z - vPrime XN YN ZN), c.a⟩

/-! ### Oklab (`oklab.rs`) -/

/-- Oklab record. -/
structure Oklab where
  l : ℝ
  a : ℝ
  b : ℝ
  alpha : ℝ

/-- Conversion `Oklab::to_color`: Oklab to LMS, guarded cubes, LMS to
linear RGB, then every output channel and alpha clamped to `[0,1]`. -/
def Oklab.to_color (v : Oklab) : Color :=
  let l' := v.l + 0.3963377774 * v.a + 0.2158037573 * v.b
  let m' := v.l - 0.1055613458 * v.a - 0.0638541728 * v.b
  let s' := v.l - 0.0894841775 * v.a - 1.2914855480 * v.b
  let lc := if |l'| < EPSILON then 0 else l' * l' * l'
  let mc := if |m'| < EPSILON then 0 else m' * m' * m'
  let sc := if |s'| < EPSILON then 0 else s' * s' * s'
  ⟨clampf (4.0767416621 * lc - 3.3077115913 * mc + 0.2309699292 * sc) 0 1,
   clampf (-1.2684380046 * lc + 2.6097574011 * mc - 0.3413193965 * sc) 0 1,
   clampf (0.0041960863 * lc - 0.7034186147 * mc + 1.7076147010 * sc) 0 1,
   clampf v.alpha 0 1⟩

/-- Conversion `Oklab::from_color`: input RGB clamped to `[0,1]`, linear
RGB to LMS, guarded cube roots, LMS to Oklab, outputs clamped. -/
def Oklab.from_color (c : Color) : Oklab :=
  let r := clampf c.r 0 1
  let g := clampf c.g 0 1
  let b := clampf c.b 0 1
  let l := 0.4122214708 * r + 0.5363325363 * g + 0.0514459929 * b
  let m := 0.2119034982 * r + 0.6806995451 * g + 0.1073969566 * b
  let s := 0.0883024619 * r + 0.2817188376 * g + 0.6299787005 * b
  let l' := if |l| < EPSILON then 0 else l ^ ((1 : ℝ) / 3)
  let m' := if |m| < EPSILON then 0 else m ^ ((1 : ℝ) / 3)
  let s' := if |s| < EPSILON then 0 else s ^ ((1 : ℝ) / 3)
  ⟨clampf (0.2104542553 * l' + 0.7936177850 * m' - 0.0040720468 * s') 0 1,
   clampf (1.9779984951 * l' - 2.4285922050 * m' + 0.4505937099 * s') (-0.5) 0.5,
   clampf (0.0259040371 * l' + 0.7827717662 * m' - 0.8086757660 * s') (-0.5) 0.5,
   clampf c.a 0 1⟩

/-! ### Oklch (`oklch.rs`) -/

/-- Oklch record. -/
structure Oklch where
  l : ℝ
  c : ℝ
  h : ℝ
  alpha : ℝ

/-- Conversion `Oklch::to_color`: polar to rectangular with the chroma
epsilon guard, then through `Oklab::to_color`. -/
def Oklch.to_color (v : Oklch) : Color :=
  let h_rad := toRadians v.h
  let c := if |v.c| < 1e-10 then 0 else v.c
  Oklab.to_color ⟨v.l, c * Real.cos h_rad, c * Real.sin h_rad, v.alpha⟩

/-- Conversion `Oklch::from_color`. -/
def Oklch.from_color (c : Color) : Oklch :=
  let ok := Oklab.from_color c
  let c_val := Real.sqrt (ok.a * ok.a + ok.b * ok.b)
  let h := if |c_val| < 1e-10 then 0 else toDegrees (atan2 ok.b ok.a)
  ⟨ok.l, c_val, wrapHue h, ok.alpha⟩

/-! ### Adobe RGB (`adobe_rgb.rs`) -/

/-- Adobe RGB record. -/
structure AdobeRgb where
  r : ℝ
  g : ℝ
  b : ℝ
  a : ℝ

/-- Decode transfer (EOTF) of Adobe RGB: guarded pure power `563/256`. -/
def adobe_decode (c : ℝ) : ℝ :=
  if |c| < EPSILON then 0 else c ^ ((563 : ℝ) / 256)

/-- Encode transfer (OETF) of Adobe RGB: guarded pure power `256/563`. -/
def adobe_encode (c : ℝ) : ℝ :=
  if |c| < EPSILON then 0 else c ^ ((256 : ℝ) / 563)

/-- XYZ to linear-sRGB stage of `AdobeRgb::to_color` (the literal
constants of the source). -/
def AdobeRgb.xyzToLinearSrgb (x y z : ℝ) : ℝ × ℝ × ℝ :=
  (3.2406 * x - 1.5372 * y - 0.4986 * z,
   -0.9689 * x + 1.8758 * y + 0.0415 * z,
   0.0557 * x - 0.2040 * y + 1.0570 * z)

/-- Linear-sRGB to XYZ stage of `AdobeRgb::from_color`. -/
def AdobeRgb.linearSrgbToXyz (r g b : ℝ) : ℝ × ℝ × ℝ :=
  (0.4124 * r + 0.3576 * g + 0.1805 * b,
   0.2126 * r + 0.7152 * g + 0.0722 * b,
   0.0193 * r + 0.1192 * g + 0.9505 * b)

/-- Conversion `AdobeRgb::to_color`. -/
def AdobeRgb.to_color (v : AdobeRgb) : Color :=
  let r_lin := adobe_decode v.r
  let g_lin := adobe_decode v.g
  let b_lin := adobe_decode v.b
  let x := 0.57667 * r_lin + 0.18556 * g_lin + 0.18823 * b_lin
  let y := 0.29734 * r_lin + 0.62736 * g_lin + 0.07529 * b_lin
  let z := 0.02703 * r_lin + 0.07069 * g_lin + 0.99134 * b_lin
  let rgb := AdobeRgb.xyzToLinearSrgb x y z
  ⟨rgb.1, rgb.2.1, rgb.2.2, v.a⟩

/-- Conversion `AdobeRgb::from_color`. -/
def AdobeRgb.from_color (c : Color) : AdobeRgb :=
  let xyz := AdobeRgb.linearSrgbToXyz c.r c.g c.b
  let r_lin := 2.04159 * xyz.1 - 0.56501 * xyz.2.1 - 0.34473 * xyz.2.2
  let g_lin := -0.96924 * xyz.1 + 1.87597 * xyz.2.1 + 0.04156 * xyz.2.2
  let b_lin := 0.01344 * xyz.1 - 0.11836 * xyz.2.1 + 1.01517 * xyz.2.2
  ⟨adobe_encode r_lin, adobe_encode g_lin, adobe_encode b_lin, c.a⟩

/-! ### Display P3 (`display_p3.rs`) -/

/-- Display P3 record. -/
structure DisplayP3 where
  r : ℝ
  g : ℝ
  b : ℝ
  a : ℝ

/-- Decode closure of `DisplayP3::to_color` (piecewise sRGB curve). -/
def p3_decode (c : ℝ) : ℝ :=
  if c ≤ 0.04045 then c / 12.92 else ((c + 0.055) / 1.055) ^ (2.4 : ℝ)

/-- Encode closure of `DisplayP3::from_color`. -/
def p3_encode (c : ℝ) : ℝ :=
  if c ≤ 0.0031308 then 12.92 * c else 1.055 * c ^ ((1 : ℝ) / 2.4) - 0.055

/-- XYZ to linear-sRGB stage of `DisplayP3::to_color`. -/
def DisplayP3.xyzToLinearSrgb (x y z : ℝ) : ℝ × ℝ × ℝ :=
  (3.2406 * x - 1.5372 * y - 0.4986 * z,
   -0.9689 * x + 1.8758 * y + 0.0415 * z,
   0.0557 * x - 0.2040 * y + 1.0570 * z)

/-- Linear-sRGB to XYZ stage of `DisplayP3::from_color`. -/
def DisplayP3.linearSrgbToXyz (r g b : ℝ) : ℝ × ℝ × ℝ :=
  (0.4124 * r + 0.3576 * g + 0.1805 * b,
   0.2126 * r + 0.7152 * g + 0.0722 * b,
   0.0193 * r + 0.1192 * g + 0.9505 * b)

/-- Conversion `DisplayP3::to_color` (note the source's `z` row has no
`x` term). -/
def DisplayP3.to_color (v : DisplayP3) : Color :=
  let r_lin := p3_decode v.r
  let g_lin := p3_decode v.g
  let b_lin := p3_decode v.b
  let x := 0.486569 * r_lin + 0.265673 * g_lin + 0.198187 * b_lin
  let y := 0.228973 * r_lin + 0.691752 * g_lin + 0.0792749 * b_lin
  let z := 0.0451143 * g_lin + 1.04379 * b_lin
  let rgb := DisplayP3.xyzToLinearSrgb x y z
  ⟨rgb.1, rgb.2.1, rgb.2.2, v.a⟩

/-- Conversion `DisplayP3::from_color`. -/
def DisplayP3.from_color (c : Color) : DisplayP3 :=
  let xyz := DisplayP3.linearSrgbToXyz c.r c.g c.b
  let r_lin := 1.2249 * xyz.1 - 0.2247 * xyz.2.1 - 0.0040 * xyz.2.2
  let g_lin := -0.0420 * xyz.1 + 1.0419 * xyz.2.1 + 0.0001 * xyz.2.2
  let b_lin := 0.0000 * xyz.1 - 0.0776 * xyz.2.1 + 0.9398 * xyz.2.2
  ⟨p3_encode r_lin, p3_encode g_lin, p3_encode b_lin, c.a⟩

/-! ### Rec.2020 (`rec2020.rs`) -/

/-- Rec.2020 record. -/
structure Rec2020 where
  r : ℝ
  g : ℝ
  b : ℝ
  a : ℝ

/-- Clamp closure `c.max(0.0).min(1.0)` of `rec2020.rs`. -/
def rec_clamp01 (c : ℝ) : ℝ := min (max c 0) 1

/-- Decode closure `inv_gamma` of `Rec2020::to_color`: clamp to `[0,1]`
then the pure power `2.4`. -/
def rec_inv_gamma (c : ℝ) : ℝ := rec_clamp01 c ^ (2.4 : ℝ)

/-- Encode closure `gamma_encode` of `Rec2020::from_color`: clamp to
`[0,1]` then the pure power `1/2.4`. -/
def rec_gamma_encode (c : ℝ) : ℝ := rec_clamp01 c ^ ((1 : ℝ) / 2.4)

/-- XYZ to linear-sRGB stage of `Rec2020::to_color` (the source's own,
higher-precision constants). -/
def Rec2020.xyzToLinearSrgb (x y z : ℝ) : ℝ × ℝ × ℝ :=
  (3.240969 * x - 1.537383 * y - 0.498611 * z,
   -0.969244 * x + 1.875968 * y + 0.041555 * z,
   0.05563 * x - 0.203977 * y + 1.056972 * z)

/-- Linear-sRGB to XYZ stage of `Rec2020::from_color`. -/
def Rec2020.linearSrgbToXyz (r g b : ℝ) : ℝ × ℝ × ℝ :=
  (0.4124 * r + 0.3576 * g + 0.1805 * b,
   0.2126 * r + 0.7152 * g + 0.0722 * b,
   0.0193 * r + 0.1192 * g + 0.9505 * b)

/-- Conversion `Rec2020::to_color`. -/
def Rec2020.to_color (v : Rec2020) : Color :=
  let r_lin := rec_inv_gamma v.r
  let g_lin := rec_inv_gamma v.g
  let b_lin := rec_inv_gamma v.b
  let x := 0.636958 * r_lin + 0.144617 * g_lin + 0.168881 * b_lin
  let y := 0.2627 * r_lin + 0.678 * g_lin + 0.0593 * b_lin
  let z := 0.0 * r_lin + 0.028073 * g_lin + 1.060985 * b_lin
  let rgb := Rec2020.xyzToLinearSrgb x y z
  ⟨rgb.1, rgb.2.1, rgb.2.2, v.a⟩

/-- Conversion `Rec2020::from_color`. -/
def Rec2020.from_color (c : Color) : Rec2020 :=
  let xyz := Rec2020.linearSrgbToXyz c.r c.g c.b
  let r_lin := 1.7166634 * xyz.1 - 0.3556733 * xyz.2.1 - 0.2533681 * xyz.2.2
  let g_lin := -0.6666738 * xyz.1 + 1.6164557 * xyz.2.1 + 0.0157683 * xyz.2.2
  let b_lin := 0.0176425 * xyz.1 - 0.0427769 * xyz.2.1 + 0.9422433 * xyz.2.2
  ⟨rec_gamma_encode r_lin, rec_gamma_encode g_lin, rec_gamma_encode b_lin, c.a⟩

/-! ### Bridge matrices as stated by the specification -/

/-- Modelled from the spec: the fixed XYZ to linear-sRGB bridge matrix
the specification claims is applied identically in every RGB-gamma
space. -/
def claimedXyzToLinearSrgb (x y z : ℝ) : ℝ × ℝ × ℝ :=
  (3.2406 * x - 1.5372 * y - 0.4986 * z,
   -0.9689 * x + 1.8758 * y + 0.0415 * z,
   0.0557 * x - 0.2040 * y + 1.0570 * z)

/-- Modelled from the spec: the fixed linear-sRGB to XYZ bridge matrix
the specification claims is applied identically in every RGB-gamma
space. -/
def claimedLinearSrgbToXyz (r g b : ℝ) : ℝ × ℝ × ℝ :=
  (0.4124 * r + 0.3576 * g + 0.1805 * b,
   0.2126 * r + 0.7152 * g + 0.0722 * b,
   0.0193 * r + 0.1192 * g + 0.9505 * b)

/-! ## Helper lemmas -/

theorem minC_le_maxC (c : Color) : minC c ≤ maxC c :=
  le_trans (le_trans (min_le_left _ _) (min_le_left _ _))
    (le_trans (le_max_left _ _) (le_max_left _ _))

theorem minC_le_g (c : Color) : minC c ≤ c.g :=
  le_trans (min_le_left _ _) (min_le_right _ _)

theorem minC_le_r (c : Color) : minC c ≤ c.r :=
  le_trans (min_le_left _ _) (min_le_left _ _)

theorem minC_le_b (c : Color) : minC c ≤ c.b := min_le_right _ _

theorem g_le_maxC (c : Color) : c.g ≤ maxC c :=
  le_trans (le_max_right _ _) (le_max_left _ _)

theorem r_le_maxC (c : Color) : c.r ≤ maxC c :=
  le_trans (le_max_left _ _) (le_max_left _ _)

theorem b_le_maxC (c : Color) : c.b ≤ maxC c := le_max_right _ _

/-! ## Claim theorems -/

/-- Claim C2, counterexample: the XYZ to linear-sRGB stage of
`Rec2020::to_color` does not use the coefficient values the
specification states for the common bridge matrix (its first
coefficient is 3.240969, not 3.2406). -/
theorem rec2020_bridge_matrix_cex :
    Rec2020.xyzToLinearSrgb 1 0 0 ≠ claimedXyzToLinearSrgb 1 0 0 := by
  intro h
  simp only [Rec2020.xyzToLinearSrgb, claimedXyzToLinearSrgb, Prod.mk.injEq] at h
  norm_num at h

/-- Claim C2, amended: Display-P3 and Adobe RGB apply the spec's bridge
matrices in both directions, and `Rec2020::from_color` applies the
spec's linear-sRGB to XYZ matrix, but the XYZ to linear-sRGB stage of
`Rec2020::to_color` uses its own higher-precision coefficients. -/
theorem bridge_matrices_family :
    (∀ x y z : ℝ, DisplayP3.xyzToLinearSrgb x y z = claimedXyzToLinearSrgb x y z) ∧
    (∀ r g b : ℝ, DisplayP3.linearSrgbToXyz r g b = claimedLinearSrgbToXyz r g b) ∧
    (∀ x y z : ℝ, AdobeRgb.xyzToLinearSrgb x y z = claimedXyzToLinearSrgb x y z) ∧
    (∀ r g b : ℝ, AdobeRgb.linearSrgbToXyz r g b = claimedLinearSrgbToXyz r g b) ∧
    (∀ r g b : ℝ, Rec2020.linearSrgbToXyz r g b = claimedLinearSrgbToXyz r g b) ∧
    (∀ x y z : ℝ, Rec2020.xyzToLinearSrgb x y z =
      (3.240969 * x - 1.537383 * y - 0.498611 * z,
       -0.969244 * x + 1.875968 * y + 0.041555 * z,
       0.05563 * x - 0.203977 * y + 1.056972 * z)) :=
  ⟨fun x y z => rfl, fun r g b => rfl, fun x y z => rfl,
   fun r g b => rfl, fun r g b => rfl, fun x y z => rfl⟩

/-- Claim C9: every space except Oklab and Oklch passes the alpha
channel through unchanged in both directions, for all inputs; Oklab
(and Oklch, which routes through it) instead clamps alpha to [0,1] in
both directions, and really modifies it (alpha 2 becomes 1). -/
theorem alpha_passthrough :
    (∀ (v : Srgb) (c : Color),
      (Srgb.to_color v).a = v.a ∧ (Srgb.from_color c).a = c.a) ∧
    (∀ (v : Hsl) (c : Color),
      (Hsl.to_color v).a = v.a ∧ (Hsl.from_color c).a = c.a) ∧
    (∀ (v : Hsv) (c : Color),
      (Hsv.to_color v).a = v.a ∧ (Hsv.from_color c).a = c.a) ∧
    (∀ (v : Hwb) (c : Color),
      (Hwb.to_color v).a = v.a ∧ (Hwb.from_color c).a = c.a) ∧
    (∀ (v : Xyz) (c : Color),
      (Xyz.to_color v).a = v.alpha ∧ (Xyz.from_color c).alpha = c.a) ∧
    (∀ (v : Lab) (c : Color),
      (Lab.to_color v).a = v.alpha ∧ (Lab.from_color c).alpha = c.a) ∧
    (∀ (v : Lch) (c : Color),
      (Lch.to_color v).a = v.a ∧ (Lch.from_color c).a = c.a) ∧
    (∀ (v : Luv) (c : Color),
      (Luv.to_color v).a = v.alpha ∧ (Luv.from_color c).alpha = c.a) ∧
    (∀ (v : AdobeRgb) (c : Color),
      (AdobeRgb.to_color v).a = v.a ∧ (AdobeRgb.from_color c).a = c.a) ∧
    (∀ (v : DisplayP3) (c : Color),
      (DisplayP3.to_color v).a = v.a ∧ (DisplayP3.from_color c).a = c.a) ∧
    (∀ (v : Rec2020) (c : Color),
      (Rec2020.to_color v).a = v.a ∧ (Rec2020.from_color c).a = c.a) ∧
    (∀ (v : Oklab) (c : Color),
      (Oklab.to_color v).a = clampf v.alpha 0 1 ∧
      (Oklab.from_color c).alpha = clampf c.a 0 1) ∧
    (∀ (v : Oklch) (c : Color),
      (Oklch.to_color v).a = clampf v.alpha 0 1 ∧
      (Oklch.from_color c).alpha = clampf c.a 0 1) ∧
    (Oklab.to_color ⟨0, 0, 0, 2⟩).a = 1 ∧ (2 : ℝ) ≠ 1 := by
  refine ⟨fun v c => ⟨rfl, rfl⟩, fun v c => ⟨rfl, rfl⟩, fun v c => ⟨rfl, rfl⟩,
    fun v c => ⟨?_, rfl⟩, fun v c => ⟨rfl, rfl⟩, fun v c => ⟨rfl, rfl⟩,
    fun v c => ⟨rfl, rfl⟩, fun v c => ⟨rfl, rfl⟩, fun v c => ⟨rfl, rfl⟩,
    fun v c => ⟨rfl, rfl⟩, fun v c => ⟨rfl, rfl⟩, fun v c => ⟨rfl, rfl⟩,
    fun v c => ⟨rfl, rfl⟩, ?_, by norm_num⟩
  · simp only [Hwb.to_color]
    split_ifs <;> rfl
  · show clampf 2 0 1 = 1
    norm_num [clampf]

/-- Claim C1, counterexample: `Hsl::from_color` executes the saturation
division `d / (2.0 - max - min)` with a zero denominator on the finite
input color (1.5, 0.5, 0.5, 1) — the achromatic epsilon guard does not
fire (d = 1) and no guard protects the denominator. -/
theorem hsl_div_guard_cex : ¬ Hsl.fromColorDivSafe ⟨1.5, 0.5, 0.5, 1⟩ := by
  have hmx : maxC ⟨1.5, 0.5, 0.5, 1⟩ = 1.5 := by
    unfold maxC
    norm_num [max_def]
  have hmn : minC ⟨1.5, 0.5, 0.5, 1⟩ = 0.5 := by
    unfold minC
    norm_num [min_def]
  simp only [Hsl.fromColorDivSafe, hmx, hmn]
  norm_num [EPSILON]

/-- Claim C1, amended: every explicitly guarded formula substitutes its
defined fallback below the 1e-10 threshold — Luv's u' and v' return 0,
the gray-denominator expression of `Hwb::to_color` is floored in
magnitude to at least 1e-10 (hence never zero), `labF` and `labFInv`
take their linear power-free branch, `Lch::to_color` and
`Oklch::to_color` convert exactly as if the chroma were 0, and the
guarded cube, cube-root and Adobe RGB power stages all return 0.  For
colors with channels inside [0,1] the saturation divisions of
`Hsl::from_color` are safe; but for finite inputs outside [0,1] those
divisions are unguarded and can divide by zero. -/
theorem hsl_guard_in_gamut_and_luv_guard :
    (∀ c : Color, 0 ≤ c.r → c.r ≤ 1 → 0 ≤ c.g → c.g ≤ 1 → 0 ≤ c.b → c.b ≤ 1 →
      Hsl.fromColorDivSafe c) ∧
    (∀ x y z : ℝ, |x + 15 * y + 3 * z| < EPSILON →
      uPrime x y z = 0 ∧ vPrime x y z = 0) ∧
    (∀ s : ℝ, EPSILON ≤ |if |s| < EPSILON then EPSILON else s|) ∧
    (∀ t : ℝ, |t| < 1e-10 →
      labF t = 1 / 3 * ((29 : ℝ) / 6) ^ (2 : ℕ) * t + 4 / 29) ∧
    (∀ u : ℝ, |u| < 1e-10 →
      labFInv u = 3 * ((6 : ℝ) / 29) ^ (2 : ℕ) * (u - 4 / 29)) ∧
    (∀ v : Lch, |v.c| < 1e-10 →
      Lch.to_color v = Lch.to_color ⟨v.l, 0, v.h, v.a⟩) ∧
    (∀ v : Oklch, |v.c| < 1e-10 →
      Oklch.to_color v = Oklch.to_color ⟨v.l, 0, v.h, v.alpha⟩) ∧
    (∀ x : ℝ, |x| < EPSILON →
      (if |x| < EPSILON then (0 : ℝ) else x * x * x) = 0 ∧
      (if |x| < EPSILON then (0 : ℝ) else x ^ ((1 : ℝ) / 3)) = 0) ∧
    (∀ x : ℝ, |x| < EPSILON → adobe_decode x = 0 ∧ adobe_encode x = 0) := by
  refine ⟨?_, ?_, ?_, ?_, ?_, ?_, ?_, ?_, ?_⟩
  · intro c hr0 hr1 hg0 hg1 hb0 hb1
    simp only [Hsl.fromColorDivSafe]
    by_cases hach : maxC c = minC c ∨ |maxC c - minC c| < EPSILON
    · exact Or.inl hach
    · refine Or.inr ?_
      push_neg at hach
      have hne : maxC c ≠ minC c := hach.1
      have hmx1 : maxC c ≤ 1 := max_le (max_le hr1 hg1) hb1
      have hmn0 : 0 ≤ minC c := le_min (le_min hr0 hg0) hb0
      have hmn1 : minC c ≤ 1 := le_trans (minC_le_maxC c) hmx1
      have hmx0 : 0 ≤ maxC c := le_trans hmn0 (minC_le_maxC c)
      split_ifs with hl
      · intro heq
        exact hne (by linarith)
      · intro heq
        exact hne (by linarith)
  · intro x y z h
    exact ⟨by unfold uPrime; rw [if_pos h], by unfold vPrime; rw [if_pos h]⟩
  · intro s
    split_ifs with h
    · rw [abs_of_nonneg (by norm_num [EPSILON])]
    · push_neg at h
      exact h
  · intro t h
    have hle : t ≤ |t| := le_abs_self t
    have hnum : (1e-10 : ℝ) ≤ ((6 : ℝ) / 29) ^ (3 : ℕ) := by norm_num
    unfold labF
    rw [if_neg (by push_neg; linarith)]
  · intro u h
    have hle : u ≤ |u| := le_abs_self u
    have hnum : (1e-10 : ℝ) ≤ (6 : ℝ) / 29 := by norm_num
    unfold labFInv
    rw [if_neg (by push_neg; linarith)]
  · intro v h
    simp only [Lch.to_color]
    rw [if_pos h, if_pos (show |(0 : ℝ)| < 1e-10 by norm_num)]
  · intro v h
    simp only [Oklch.to_color]
    rw [if_pos h, if_pos (show |(0 : ℝ)| < 1e-10 by norm_num)]
  · intro x h
    exact ⟨if_pos h, if_pos h⟩
  · intro x h
    exact ⟨by unfold adobe_decode; rw [if_pos h],
      by unfold adobe_encode; rw [if_pos h]⟩

/-- Witness for the amended claim C1, exercising every guarded conjunct
at a concrete input. -/
theorem hsl_guard_in_gamut_and_luv_guard_witness :
    Hsl.fromColorDivSafe ⟨1, 0, 0, 1⟩ ∧
    uPrime 0 0 0 = 0 ∧
    EPSILON ≤ |if |(0 : ℝ)| < EPSILON then EPSILON else (0 : ℝ)| ∧
    labF 0 = 1 / 3 * ((29 : ℝ) / 6) ^ (2 : ℕ) * 0 + 4 / 29 ∧
    labFInv 0 = 3 * ((6 : ℝ) / 29) ^ (2 : ℕ) * (0 - 4 / 29) ∧
    Lch.to_color ⟨50, 0, 123, 1⟩ = Lch.to_color ⟨50, 0, 123, 1⟩ ∧
    Oklch.to_color ⟨1, 0, 0, 1⟩ = Oklch.to_color ⟨1, 0, 0, 1⟩ ∧
    (if |(0 : ℝ)| < EPSILON then (0 : ℝ) else 0 * 0 * 0) = 0 ∧
    adobe_decode 0 = 0 := by
  obtain ⟨h1, h2, h3, h4, h5, h6, h7, h8, h9⟩ := hsl_guard_in_gamut_and_luv_guard
  exact ⟨h1 ⟨1, 0, 0, 1⟩ (by norm_num) (by norm_num) (by norm_num) (by norm_num)
      (by norm_num) (by norm_num),
    (h2 0 0 0 (by norm_num [EPSILON])).1,
    h3 0,
    h4 0 (by norm_num),
    h5 0 (by norm_num),
    h6 ⟨50, 0, 123, 1⟩ (by norm_num),
    h7 ⟨1, 0, 0, 1⟩ (by norm_num),
    (h8 0 (by norm_num [EPSILON])).1,
    (h9 0 (by norm_num [EPSILON])).1⟩

theorem srgb_channel_roundtrip {x : ℝ} (hx : x = 0 ∨ x = 1 / 2 ∨ x = 1) :
    linear_to_srgb (srgb_to_linear x) = x := by
  rcases hx with rfl | rfl | rfl
  · have h0 : srgb_to_linear 0 = 0 := by
      unfold srgb_to_linear
      rw [if_pos (by norm_num)]
      norm_num
    rw [h0]
    unfold linear_to_srgb
    rw [if_pos (by norm_num)]
    norm_num
  · have h : srgb_to_linear (1 / 2) = ((111 : ℝ) / 211) ^ (2.4 : ℝ) := by
      unfold srgb_to_linear
      rw [if_neg (by norm_num), show ((1 : ℝ) / 2 + 0.055) / 1.055 = 111 / 211 by norm_num]
    rw [h]
    unfold linear_to_srgb
    have h3 : ((111 : ℝ) / 211) ^ (3 : ℝ) ≤ ((111 : ℝ) / 211) ^ (2.4 : ℝ) :=
      Real.rpow_le_rpow_of_exponent_ge (by norm_num) (by norm_num) (by norm_num)
    rw [show ((3 : ℝ)) = ((3 : ℕ) : ℝ) by norm_num, Real.rpow_natCast] at h3
    have h3' : (0.0031308 : ℝ) < ((111 : ℝ) / 211) ^ (3 : ℕ) := by norm_num
    rw [if_neg (by linarith)]
    rw [← Real.rpow_mul (by norm_num : (0 : ℝ) ≤ 111 / 211),
      show (2.4 * (1 / 2.4) : ℝ) = 1 by norm_num, Real.rpow_one]
    norm_num
  · have h : srgb_to_linear 1 = 1 := by
      unfold srgb_to_linear
      rw [if_neg (by norm_num), show ((1 : ℝ) + 0.055) / 1.055 = 1 by norm_num,
        Real.one_rpow]
    rw [h]
    unfold linear_to_srgb
    rw [if_neg (by norm_num), Real.one_rpow]
    norm_num

/-- Claim C3, real-arithmetic model: under exact real arithmetic the
sRGB round trip through the pivot reproduces the input exactly at every
corner and midpoint channel value (the f64 code misses exactness at
channel value 1.0, where `1.055 * 1.0 - 0.055` rounds to
0.9999999999999999). -/
theorem srgb_roundtrip_corners :
    ∀ v : Srgb, (v.r = 0 ∨ v.r = 1 / 2 ∨ v.r = 1) →
      (v.g = 0 ∨ v.g = 1 / 2 ∨ v.g = 1) → (v.b = 0 ∨ v.b = 1 / 2 ∨ v.b = 1) →
      (v.a = 0 ∨ v.a = 1 / 2 ∨ v.a = 1) →
      Srgb.from_color (Srgb.to_color v) = v := by
  rintro ⟨r, g, b, a⟩ hr hg hb _
  simp only [Srgb.to_color, Srgb.from_color] at *
  simp [Srgb.mk.injEq, srgb_channel_roundtrip hr, srgb_channel_roundtrip hg,
    srgb_channel_roundtrip hb]

/-- Witness for the claim C3 model theorem at a concrete corner. -/
theorem srgb_roundtrip_corners_witness :
    Srgb.from_color (Srgb.to_color ⟨1, 1 / 2, 0, 1⟩) = ⟨1, 1 / 2, 0, 1⟩ :=
  srgb_roundtrip_corners ⟨1, 1 / 2, 0, 1⟩ (by norm_num) (by norm_num) (by norm_num)
    (by norm_num)

theorem rec_clamp01_mem (x : ℝ) : 0 ≤ rec_clamp01 x ∧ rec_clamp01 x ≤ 1 :=
  ⟨le_min (le_max_right x 0) (by norm_num), min_le_right _ _⟩

theorem rec_gamma_encode_mem (y : ℝ) :
    0 ≤ rec_gamma_encode y ∧ rec_gamma_encode y ≤ 1 :=
  ⟨Real.rpow_nonneg (rec_clamp01_mem y).1 _,
   Real.rpow_le_one (rec_clamp01_mem y).1 (rec_clamp01_mem y).2 (by norm_num)⟩

theorem rec_clamp01_of_nonpos {x : ℝ} (h : x ≤ 0) : rec_clamp01 x = 0 := by
  unfold rec_clamp01
  rw [max_eq_right h, min_eq_left (by norm_num)]

theorem rec_clamp01_of_one_le {x : ℝ} (h : 1 ≤ x) : rec_clamp01 x = 1 := by
  unfold rec_clamp01
  rw [max_eq_left (le_trans zero_le_one h), min_eq_right h]

/-- Claim C7: Rec.2020's transfer functions clamp to [0,1] before the
pure power (2.4 decoding, 1/2.4 encoding), so inputs at or below 0 map
to 0 and at or above 1 map to 1, and every `Rec2020::from_color` output
channel lies in [0,1]; the other RGB-gamma spaces do not clamp — their
`to_color` escapes [0,1] on the out-of-range input r = 2. -/
theorem rec2020_transfer_clamps :
    (∀ x : ℝ, rec_inv_gamma x = rec_clamp01 x ^ (2.4 : ℝ) ∧
      rec_gamma_encode x = rec_clamp01 x ^ ((1 : ℝ) / 2.4)) ∧
    (∀ x : ℝ, x ≤ 0 → rec_inv_gamma x = 0 ∧ rec_gamma_encode x = 0) ∧
    (∀ x : ℝ, 1 ≤ x → rec_inv_gamma x = 1 ∧ rec_gamma_encode x = 1) ∧
    (∀ c : Color,
      0 ≤ (Rec2020.from_color c).r ∧ (Rec2020.from_color c).r ≤ 1 ∧
      0 ≤ (Rec2020.from_color c).g ∧ (Rec2020.from_color c).g ≤ 1 ∧
      0 ≤ (Rec2020.from_color c).b ∧ (Rec2020.from_color c).b ≤ 1) ∧
    1 < (Srgb.to_color ⟨2, 0, 0, 1⟩).r ∧
    1 < (DisplayP3.to_color ⟨2, 0, 0, 1⟩).r ∧
    1 < (AdobeRgb.to_color ⟨2, 0, 0, 1⟩).r := by
  refine ⟨fun x => ⟨rfl, rfl⟩, fun x h => ?_, fun x h => ?_, fun c => ?_, ?_, ?_, ?_⟩
  · unfold rec_inv_gamma rec_gamma_encode
    rw [rec_clamp01_of_nonpos h]
    exact ⟨Real.zero_rpow (by norm_num), Real.zero_rpow (by norm_num)⟩
  · unfold rec_inv_gamma rec_gamma_encode
    rw [rec_clamp01_of_one_le h]
    exact ⟨Real.one_rpow _, Real.one_rpow _⟩
  · exact ⟨(rec_gamma_encode_mem _).1, (rec_gamma_encode_mem _).2,
      (rec_gamma_encode_mem _).1, (rec_gamma_encode_mem _).2,
      (rec_gamma_encode_mem _).1, (rec_gamma_encode_mem _).2⟩
  · show 1 < srgb_to_linear 2
    unfold srgb_to_linear
    rw [if_neg (by norm_num)]
    have h1 : ((2 + 0.055) / 1.055 : ℝ) ^ (1 : ℝ) ≤ ((2 + 0.055) / 1.055 : ℝ) ^ (2.4 : ℝ) :=
      Real.rpow_le_rpow_of_exponent_le (by norm_num) (by norm_num)
    rw [Real.rpow_one] at h1
    nlinarith [h1]
  · have hp0 : p3_decode 0 = 0 := by
      unfold p3_decode
      rw [if_pos (by norm_num)]
      norm_num
    have hp2 : (1.94 : ℝ) ≤ p3_decode 2 := by
      unfold p3_decode
      rw [if_neg (by norm_num)]
      have h1 : ((2 + 0.055) / 1.055 : ℝ) ^ (1 : ℝ) ≤ ((2 + 0.055) / 1.055 : ℝ) ^ (2.4 : ℝ) :=
        Real.rpow_le_rpow_of_exponent_le (by norm_num) (by norm_num)
      rw [Real.rpow_one] at h1
      nlinarith [h1]
    show 1 < (DisplayP3.to_color ⟨2, 0, 0, 1⟩).r
    simp only [DisplayP3.to_color, DisplayP3.xyzToLinearSrgb, hp0]
    nlinarith [hp2]
  · have ha0 : adobe_decode 0 = 0 := by
      unfold adobe_decode
      rw [if_pos (by norm_num [EPSILON])]
    have ha2 : (2 : ℝ) ≤ adobe_decode 2 := by
      unfold adobe_decode
      rw [if_neg (by norm_num [EPSILON])]
      calc (2 : ℝ) = 2 ^ (1 : ℝ) := (Real.rpow_one 2).symm
        _ ≤ 2 ^ ((563 : ℝ) / 256) :=
          Real.rpow_le_rpow_of_exponent_le (by norm_num) (by norm_num)
    show 1 < (AdobeRgb.to_color ⟨2, 0, 0, 1⟩).r
    simp only [AdobeRgb.to_color, AdobeRgb.xyzToLinearSrgb]
    rw [ha0]
    nlinarith [ha2]

/-- Witness for claim C7 at concrete inputs, exercising the hypotheses
of the endpoint conjuncts. -/
theorem rec2020_transfer_clamps_witness :
    (rec_inv_gamma (-1) = 0 ∧ rec_gamma_encode (-1) = 0) ∧
    (rec_inv_gamma 2 = 1 ∧ rec_gamma_encode 2 = 1) :=
  ⟨rec2020_transfer_clamps.2.1 (-1) (by norm_num),
   rec2020_transfer_clamps.2.2.1 2 (by norm_num)⟩

/-- Claim C8: when the clamped whiteness and blackness sum to at least
1, `Hwb::to_color` returns the achromatic gray w/(w+b) on all three
channels (the epsilon floor on the denominator is inactive there), and
in particular Hwb (0, 0.6, 0.6, 1) maps to (0.5, 0.5, 0.5, 1). -/
theorem hwb_degenerate_gray :
    (∀ v : Hwb, 1 ≤ clampf v.w 0 1 + clampf v.b 0 1 →
      Hwb.to_color v =
        ⟨clampf v.w 0 1 / (clampf v.w 0 1 + clampf v.b 0 1),
         clampf v.w 0 1 / (clampf v.w 0 1 + clampf v.b 0 1),
         clampf v.w 0 1 / (clampf v.w 0 1 + clampf v.b 0 1), v.a⟩) ∧
    Hwb.to_color ⟨0, 0.6, 0.6, 1⟩ = ⟨0.5, 0.5, 0.5, 1⟩ := by
  have key : ∀ v : Hwb, 1 ≤ clampf v.w 0 1 + clampf v.b 0 1 →
      Hwb.to_color v =
        ⟨clampf v.w 0 1 / (clampf v.w 0 1 + clampf v.b 0 1),
         clampf v.w 0 1 / (clampf v.w 0 1 + clampf v.b 0 1),
         clampf v.w 0 1 / (clampf v.w 0 1 + clampf v.b 0 1), v.a⟩ := by
    intro v h
    simp only [Hwb.to_color]
    rw [if_pos h, if_neg]
    rw [abs_of_nonneg (by linarith)]
    unfold EPSILON
    push_neg
    linarith
  refine ⟨key, ?_⟩
  have hcl : clampf (0.6 : ℝ) 0 1 = 0.6 := by norm_num [clampf]
  rw [key ⟨0, 0.6, 0.6, 1⟩ (by simp only [hcl]; norm_num)]
  simp only [hcl]
  norm_num

/-- Witness for claim C8 at the concrete degenerate input. -/
theorem hwb_degenerate_gray_witness :
    1 ≤ clampf (0.6 : ℝ) 0 1 + clampf (0.6 : ℝ) 0 1 ∧
    Hwb.to_color ⟨0, 0.6, 0.6, 1⟩ =
      ⟨clampf (0.6 : ℝ) 0 1 / (clampf (0.6 : ℝ) 0 1 + clampf (0.6 : ℝ) 0 1),
       clampf (0.6 : ℝ) 0 1 / (clampf (0.6 : ℝ) 0 1 + clampf (0.6 : ℝ) 0 1),
       clampf (0.6 : ℝ) 0 1 / (clampf (0.6 : ℝ) 0 1 + clampf (0.6 : ℝ) 0 1), 1⟩ :=
  ⟨by norm_num [clampf],
   hwb_degenerate_gray.1 ⟨0, 0.6, 0.6, 1⟩ (by norm_num [clampf])⟩

/-- Claim C10: for every pivot color, the hue computed by
`Hsv::from_color` before the final correction stays strictly inside
(-360, 360) (in fact within [-60, 300]), and the returned hue lies in
[0, 360). -/
theorem hsv_hue_range :
    ∀ c : Color, (-360 < Hsv.rawHue c ∧ Hsv.rawHue c < 360) ∧
      0 ≤ (Hsv.from_color c).h ∧ (Hsv.from_color c).h < 360 := by
  intro c
  have hbound : -60 ≤ Hsv.rawHue c ∧ Hsv.rawHue c ≤ 300 := by
    unfold Hsv.rawHue
    by_cases hd : maxC c - minC c = 0
    · rw [if_pos hd]
      norm_num
    · rw [if_neg hd]
      have hdpos : 0 < maxC c - minC c :=
        lt_of_le_of_ne (by linarith [minC_le_maxC c]) (Ne.symm hd)
      by_cases h1 : maxC c = c.r
      · rw [if_pos h1]
        have hq1 : (c.g - c.b) / (maxC c - minC c) ≤ 1 := by
          rw [div_le_one hdpos]
          linarith [g_le_maxC c, minC_le_b c]
        have hq2 : -1 ≤ (c.g - c.b) / (maxC c - minC c) := by
          rw [le_div_iff₀ hdpos]
          linarith [minC_le_g c, b_le_maxC c]
        have hrem : rustRem ((c.g - c.b) / (maxC c - minC c)) 6 =
            (c.g - c.b) / (maxC c - minC c) := by
          unfold rustRem truncR
          set q := (c.g - c.b) / (maxC c - minC c) with hqdef
          by_cases hq : 0 ≤ q / 6
          · rw [if_pos hq, Int.floor_eq_zero_iff.mpr (Set.mem_Ico.mpr ⟨hq, by linarith⟩)]
            push_cast
            ring
          · rw [if_neg hq, Int.ceil_eq_zero_iff.mpr (Set.mem_Ioc.mpr ⟨by linarith, by linarith⟩)]
            push_cast
            ring
        rw [hrem]
        constructor <;> linarith
      · rw [if_neg h1]
        by_cases h2 : maxC c = c.g
        · rw [if_pos h2]
          have hq1 : (c.b - c.r) / (maxC c - minC c) ≤ 1 := by
            rw [div_le_one hdpos]
            linarith [b_le_maxC c, minC_le_r c]
          have hq2 : -1 ≤ (c.b - c.r) / (maxC c - minC c) := by
            rw [le_div_iff₀ hdpos]
            linarith [minC_le_b c, r_le_maxC c]
          constructor <;> linarith
        · rw [if_neg h2]
          have hq1 : (c.r - c.g) / (maxC c - minC c) ≤ 1 := by
            rw [div_le_one hdpos]
            linarith [r_le_maxC c, minC_le_g c]
          have hq2 : -1 ≤ (c.r - c.g) / (maxC c - minC c) := by
            rw [le_div_iff₀ hdpos]
            linarith [minC_le_r c, g_le_maxC c]
          constructor <;> linarith
  refine ⟨⟨by linarith [hbound.1], by linarith [hbound.2]⟩, ?_⟩
  have hh : (Hsv.from_color c).h = wrapHue (Hsv.rawHue c) := rfl
  rw [hh]
  unfold wrapHue
  split_ifs with h
  · exact ⟨by linarith [hbound.1], by linarith⟩
  · exact ⟨by linarith, by linarith [hbound.2]⟩

/-! ## Hue, arctangent and cube-root helper lemmas -/

theorem toDegrees_atan2_bounds (b a : ℝ) :
    -180 < toDegrees (atan2 b a) ∧ toDegrees (atan2 b a) ≤ 180 := by
  have hpi : 0 < Real.pi := Real.pi_pos
  have harg := Complex.arg_mem_Ioc (⟨a, b⟩ : ℂ)
  have h1 : -Real.pi < atan2 b a := harg.1
  have h2 : atan2 b a ≤ Real.pi := harg.2
  have hk : 0 < 180 / Real.pi := by positivity
  constructor
  · have hm := mul_lt_mul_of_pos_right h1 hk
    have he : -Real.pi * (180 / Real.pi) = -180 := by
      field_simp
      ring
    unfold toDegrees
    linarith
  · have hm := mul_le_mul_of_nonneg_right h2 (le_of_lt hk)
    have he : Real.pi * (180 / Real.pi) = 180 := by
      field_simp
    unfold toDegrees
    linarith

theorem wrapHue_toDegrees_atan2_mem (b a : ℝ) :
    0 ≤ wrapHue (toDegrees (atan2 b a)) ∧ wrapHue (toDegrees (atan2 b a)) < 360 := by
  obtain ⟨h1, h2⟩ := toDegrees_atan2_bounds b a
  unfold wrapHue
  split_ifs with h
  · exact ⟨by linarith, by linarith⟩
  · exact ⟨by linarith, by linarith⟩

theorem wrapHue_guard_mem (c_val b a : ℝ) :
    0 ≤ wrapHue (if |c_val| < 1e-10 then 0 else toDegrees (atan2 b a)) ∧
    wrapHue (if |c_val| < 1e-10 then 0 else toDegrees (atan2 b a)) < 360 := by
  split_ifs with h
  · unfold wrapHue
    norm_num
  · exact wrapHue_toDegrees_atan2_mem b a

theorem wrapHue_toDegrees_atan2_ne_zero {a b : ℝ} (hb : b ≠ 0) :
    wrapHue (toDegrees (atan2 b a)) ≠ 0 := by
  have hargne : atan2 b a ≠ 0 := by
    intro h
    exact hb (Complex.arg_eq_zero_iff.mp h).2
  have hdegne : toDegrees (atan2 b a) ≠ 0 := by
    unfold toDegrees
    intro h
    rcases mul_eq_zero.mp h with h' | h'
    · exact hargne h'
    · have hpi : (0 : ℝ) < 180 / Real.pi := by positivity
      linarith [hpi, h'.ge, h'.le]
  obtain ⟨h1, _⟩ := toDegrees_atan2_bounds b a
  unfold wrapHue
  split_ifs with h
  · intro heq
    linarith
  · exact hdegne

theorem le_cbrt {q t : ℝ} (hq : 0 ≤ q) (h : q ^ (3 : ℕ) ≤ t) :
    q ≤ t ^ ((1 : ℝ) / 3) := by
  have h1 : ((q ^ (3 : ℕ) : ℝ)) ^ ((1 : ℝ) / 3) ≤ t ^ ((1 : ℝ) / 3) :=
    Real.rpow_le_rpow (by positivity) h (by norm_num)
  rwa [← Real.rpow_natCast q 3, ← Real.rpow_mul hq,
    show ((3 : ℕ) : ℝ) * (1 / 3) = 1 by norm_num, Real.rpow_one] at h1

theorem cbrt_le {q t : ℝ} (hq : 0 ≤ q) (ht : 0 ≤ t) (h : t ≤ q ^ (3 : ℕ)) :
    t ^ ((1 : ℝ) / 3) ≤ q := by
  have h1 : t ^ ((1 : ℝ) / 3) ≤ ((q ^ (3 : ℕ) : ℝ)) ^ ((1 : ℝ) / 3) :=
    Real.rpow_le_rpow ht h (by norm_num)
  rwa [← Real.rpow_natCast q 3, ← Real.rpow_mul hq,
    show ((3 : ℕ) : ℝ) * (1 / 3) = 1 by norm_num, Real.rpow_one] at h1

theorem cbrt_cube {u : ℝ} (hu : 0 ≤ u) : (u ^ ((1 : ℝ) / 3)) ^ (3 : ℕ) = u := by
  rw [← Real.rpow_natCast (u ^ ((1 : ℝ) / 3)) 3, ← Real.rpow_mul hu,
    show (1 / 3 : ℝ) * ((3 : ℕ) : ℝ) = 1 by norm_num, Real.rpow_one]

theorem cbrt_sub_lower {u v : ℝ} (hv : 0 ≤ v) (huv : v ≤ u) (hu : u ≤ 1) :
    (u - v) / 3 ≤ u ^ ((1 : ℝ) / 3) - v ^ ((1 : ℝ) / 3) := by
  have hu0 : 0 ≤ u := le_trans hv huv
  set a := u ^ ((1 : ℝ) / 3) with ha
  set b := v ^ ((1 : ℝ) / 3) with hb
  have ha0 : 0 ≤ a := Real.rpow_nonneg hu0 _
  have hb0 : 0 ≤ b := Real.rpow_nonneg hv _
  have ha1 : a ≤ 1 := Real.rpow_le_one hu0 hu (by norm_num)
  have hb1 : b ≤ 1 := Real.rpow_le_one hv (le_trans huv hu) (by norm_num)
  have hab : b ≤ a := Real.rpow_le_rpow hv huv (by norm_num)
  have hacube : a ^ (3 : ℕ) = u := cbrt_cube hu0
  have hbcube : b ^ (3 : ℕ) = v := cbrt_cube hv
  have h3 : a * a + a * b + b * b ≤ 3 := by nlinarith
  have key : u - v = (a - b) * (a * a + a * b + b * b) := by
    rw [← hacube, ← hbcube]
    ring
  nlinarith [mul_le_mul_of_nonneg_left h3 (sub_nonneg.mpr hab)]

theorem arctan_le_self_of_nonneg {w : ℝ} (h : 0 ≤ w) : Real.arctan w ≤ w := by
  rcases eq_or_lt_of_le h with heq | hlt
  · rw [← heq]
    simp [Real.arctan_zero]
  · have h0 : 0 < Real.arctan w := by
      have hm := Real.arctan_strictMono hlt
      rwa [Real.arctan_zero] at hm
    have h2 : Real.arctan w < Real.pi / 2 := Real.arctan_lt_pi_div_two w
    have h3 := Real.lt_tan h0 h2
    rw [Real.tan_arctan] at h3
    exact le_of_lt h3

theorem abs_arctan_le (w : ℝ) : |Real.arctan w| ≤ |w| := by
  rcases le_or_lt 0 w with h | h
  · have h0 : 0 ≤ Real.arctan w := by
      have hm := Real.arctan_strictMono.monotone h
      rwa [Real.arctan_zero] at hm
    rw [abs_of_nonneg h, abs_of_nonneg h0]
    exact arctan_le_self_of_nonneg h
  · have h0 : Real.arctan w < 0 := by
      have hm := Real.arctan_strictMono h
      rwa [Real.arctan_zero] at hm
    rw [abs_of_neg h, abs_of_neg h0]
    have h1 := arctan_le_self_of_nonneg (by linarith : (0 : ℝ) ≤ -w)
    rw [Real.arctan_neg] at h1
    linarith

theorem arctan_diff_le {u v : ℝ} (huv : 0 ≤ u * v) :
    |Real.arctan u - Real.arctan v| ≤ |u - v| := by
  have h1 : u * -v < 1 := by nlinarith
  have h0 := Real.arctan_add h1
  have heq : Real.arctan u - Real.arctan v = Real.arctan ((u - v) / (1 + u * v)) := by
    rw [sub_eq_add_neg, ← Real.arctan_neg v, h0,
      show (u + -v) / (1 - u * -v) = (u - v) / (1 + u * v) by ring_nf]
  rw [heq]
  calc |Real.arctan ((u - v) / (1 + u * v))| ≤ |(u - v) / (1 + u * v)| :=
        abs_arctan_le _
    _ = |u - v| / |1 + u * v| := abs_div _ _
    _ ≤ |u - v| := by
        have h2 : 1 ≤ |1 + u * v| := by
          rw [abs_of_nonneg (by linarith)]
          linarith
        exact div_le_self (abs_nonneg _) h2

theorem arctan_inv_sqrt3 : Real.arctan (1 / Real.sqrt 3) = Real.pi / 6 := by
  have hpi : 0 < Real.pi := Real.pi_pos
  rw [← Real.tan_pi_div_six, Real.arctan_tan (by linarith) (by linarith)]

theorem atan2_pos_re {a b : ℝ} (ha : 0 < a) : atan2 b a = Real.arctan (b / a) := by
  have h1 : |Complex.arg ⟨a, b⟩| < Real.pi / 2 := by
    rw [Complex.abs_arg_lt_pi_div_two_iff]
    exact Or.inl ha
  obtain ⟨hl, hr⟩ := abs_lt.mp h1
  unfold atan2
  calc Complex.arg ⟨a, b⟩ = Real.arctan (Real.tan (Complex.arg ⟨a, b⟩)) :=
        (Real.arctan_tan hl hr).symm
    _ = Real.arctan (b / a) := by
        rw [Complex.tan_arg]

theorem lab_from_color_a (c : Color) :
    (Lab.from_color c).a = 500 * (labF (labX c / XN) - labF (labY c / YN)) := rfl

theorem lab_from_color_b (c : Color) :
    (Lab.from_color c).b = 200 * (labF (labY c / YN) - labF (labZ c / ZN)) := rfl

theorem lch_from_color_h (c : Color) :
    (Lch.from_color c).h = wrapHue
      (if |Real.sqrt ((Lab.from_color c).a * (Lab.from_color c).a +
          (Lab.from_color c).b * (Lab.from_color c).b)| < 1e-10 then 0
       else toDegrees (atan2 (Lab.from_color c).b (Lab.from_color c).a)) := rfl

theorem labF_eq_cbrt {t : ℝ} (h : ((6 : ℝ) / 29) ^ (3 : ℕ) < t) :
    labF t = t ^ ((1 : ℝ) / 3) := by
  have ht0 : (0 : ℝ) < t := lt_trans (by norm_num) h
  have hnum : (1e-10 : ℝ) < ((6 : ℝ) / 29) ^ (3 : ℕ) := by norm_num
  unfold labF
  rw [if_pos h, if_neg (by rw [abs_of_pos ht0]; push_neg; linarith)]

theorem labF_gap {u v : ℝ} (h2 : 0 ≤ v) (h1 : v + 4 / 1000000 ≤ u) (h3 : u ≤ 1)
    (h4 : ((6 : ℝ) / 29) ^ (3 : ℕ) < u) (h5 : ((6 : ℝ) / 29) ^ (3 : ℕ) < v) :
    1e-10 < 200 * (labF u - labF v) := by
  rw [labF_eq_cbrt h4, labF_eq_cbrt h5]
  have hdiff := cbrt_sub_lower h2 (by linarith) h3
  linarith

theorem labF_between {t lo hi q1 q2 : ℝ} (hq1 : 0 ≤ q1) (hq2 : 0 ≤ q2)
    (hlo : lo ≤ t) (hhi : t ≤ hi) (hlo2 : ((6 : ℝ) / 29) ^ (3 : ℕ) < lo)
    (hcb1 : q1 ^ (3 : ℕ) ≤ lo) (hcb2 : hi ≤ q2 ^ (3 : ℕ)) :
    q1 ≤ labF t ∧ labF t ≤ q2 := by
  have h4 : ((6 : ℝ) / 29) ^ (3 : ℕ) < t := lt_of_lt_of_le hlo2 hlo
  have ht0 : (0 : ℝ) ≤ t := le_of_lt (lt_trans (by norm_num) h4)
  rw [labF_eq_cbrt h4]
  exact ⟨le_cbrt hq1 (le_trans hcb1 hlo), cbrt_le hq2 ht0 (le_trans hhi hcb2)⟩

theorem hue_of_big_chroma {A B : ℝ} (hB : 1e-10 < B) :
    wrapHue (if |Real.sqrt (A * A + B * B)| < 1e-10 then 0
      else toDegrees (atan2 B A)) ≠ 0 := by
  have hB0 : 0 < B := by linarith
  have hle : B ≤ Real.sqrt (A * A + B * B) := by
    have h1 : B * B ≤ A * A + B * B := by nlinarith [mul_self_nonneg A]
    calc B = Real.sqrt (B * B) := (Real.sqrt_mul_self (le_of_lt hB0)).symm
      _ ≤ Real.sqrt (A * A + B * B) := Real.sqrt_le_sqrt h1
  rw [if_neg (by rw [abs_of_nonneg (Real.sqrt_nonneg _)]; push_neg; linarith)]
  exact wrapHue_toDegrees_atan2_ne_zero (ne_of_gt hB0)

theorem hue_near_330 {A B : ℝ} (hA1 : (25.97912 : ℝ) ≤ A) (hA2 : A ≤ 25.97917)
    (hB1 : (-14.998898 : ℝ) ≤ B) (hB2 : B ≤ -14.998878) :
    |wrapHue (if |Real.sqrt (A * A + B * B)| < 1e-10 then 0
      else toDegrees (atan2 B A)) - 330| ≤ 1 / 100 := by
  have hs3 := Real.sq_sqrt (show (0 : ℝ) ≤ 3 by norm_num)
  have hsn := Real.sqrt_nonneg 3
  have hs1 : (1.732050807 : ℝ) ≤ Real.sqrt 3 := by nlinarith
  have hs2 : Real.sqrt 3 ≤ (1.732050809 : ℝ) := by nlinarith
  have hA0 : 0 < A := by linarith
  have hB0 : B < 0 := by linarith
  have hcv : A ≤ Real.sqrt (A * A + B * B) := by
    have h1 : A * A ≤ A * A + B * B := by nlinarith [mul_self_nonneg B]
    calc A = Real.sqrt (A * A) := (Real.sqrt_mul_self (le_of_lt hA0)).symm
      _ ≤ Real.sqrt (A * A + B * B) := Real.sqrt_le_sqrt h1
  rw [if_neg (by rw [abs_of_nonneg (Real.sqrt_nonneg _)]; push_neg; linarith)]
  rw [atan2_pos_re hA0]
  have hsp : (0 : ℝ) < Real.sqrt 3 := by linarith
  have hratio : |B / A + 1 / Real.sqrt 3| ≤ 1e-5 := by
    have hAs : (0 : ℝ) < A * Real.sqrt 3 := by positivity
    have hAne : A ≠ 0 := ne_of_gt hA0
    have hsne : Real.sqrt 3 ≠ 0 := ne_of_gt hsp
    have heq : B / A + 1 / Real.sqrt 3 = (B * Real.sqrt 3 + A) / (A * Real.sqrt 3) := by
      field_simp
    rw [heq, abs_div, abs_of_pos hAs, div_le_iff₀ hAs]
    have hBs1 : (-14.998898 : ℝ) * 1.732050809 ≤ B * Real.sqrt 3 := by nlinarith
    have hBs2 : B * Real.sqrt 3 ≤ (-14.998878 : ℝ) * 1.732050807 := by nlinarith
    have habs : |B * Real.sqrt 3 + A| ≤ 0.0003513 := by
      rw [abs_le]
      constructor <;> nlinarith
    have hAs2 : (25.97912 : ℝ) * 1.732050807 ≤ A * Real.sqrt 3 := by nlinarith
    nlinarith [habs, hAs2]
  have harct : |Real.arctan (B / A) + Real.pi / 6| ≤ 1e-5 := by
    have h6 : Real.arctan (-(1 / Real.sqrt 3)) = -(Real.pi / 6) := by
      rw [Real.arctan_neg, arctan_inv_sqrt3]
    have hba : B / A < 0 := div_neg_of_neg_of_pos hB0 hA0
    have hy : -(1 / Real.sqrt 3) < 0 := by
      have : (0 : ℝ) < 1 / Real.sqrt 3 := by positivity
      linarith
    have hprod : 0 ≤ B / A * -(1 / Real.sqrt 3) :=
      le_of_lt (mul_pos_of_neg_of_neg hba hy)
    have hdiff := arctan_diff_le hprod
    rw [h6] at hdiff
    calc |Real.arctan (B / A) + Real.pi / 6|
        = |Real.arctan (B / A) - -(Real.pi / 6)| := by rw [sub_neg_eq_add]
      _ ≤ |B / A - -(1 / Real.sqrt 3)| := hdiff
      _ = |B / A + 1 / Real.sqrt 3| := by rw [sub_neg_eq_add]
      _ ≤ 1e-5 := hratio
  have hpi3 : (3.141592 : ℝ) < Real.pi := Real.pi_gt_d6
  have harneg : Real.arctan (B / A) < 0 := by
    have hba : B / A < 0 := div_neg_of_neg_of_pos hB0 hA0
    have hm := Real.arctan_strictMono hba
    rwa [Real.arctan_zero] at hm
  have hdegneg : toDegrees (Real.arctan (B / A)) < 0 := by
    unfold toDegrees
    apply mul_neg_of_neg_of_pos harneg
    positivity
  unfold wrapHue
  rw [if_pos hdegneg]
  have hkey : toDegrees (Real.arctan (B / A)) + 360 - 330 =
      (Real.arctan (B / A) + Real.pi / 6) * (180 / Real.pi) := by
    unfold toDegrees
    field_simp
    ring
  rw [hkey, abs_mul, abs_of_pos (show (0 : ℝ) < 180 / Real.pi by positivity)]
  have hk3 : (180 : ℝ) / Real.pi ≤ 60 := by
    rw [div_le_iff₀ Real.pi_pos]
    nlinarith [hpi3]
  calc |Real.arctan (B / A) + Real.pi / 6| * (180 / Real.pi) ≤ 1e-5 * 60 :=
        mul_le_mul harct hk3 (by positivity) (by norm_num)
    _ ≤ 1 / 100 := by norm_num

/-- Claim C4: the achromatic round trip Lch (50, 0, 123, 1) through the
pivot does NOT report hue 0.  The chroma reconstructed by
`Lch::from_color` is about 1.5e-3 — far above the 1e-10 epsilon —
because the two fixed bridge matrices are not exact mutual inverses, so
the hue is recomputed from matrix round-off rather than reset (it comes
out near 145 degrees, neither 0 nor 123). -/
theorem lch_roundtrip_hue_not_reset :
    (Lch.from_color (Lch.to_color ⟨50, 0, 123, 1⟩)).h ≠ 0 := by
  have hcol : Lch.to_color ⟨50, 0, 123, 1⟩ =
      ⟨8984271957507 / 48778000000000, 17969866720047 / 97556000000000,
       35931052031193 / 195112000000000, 1⟩ := by
    have habs : ¬ |(33 : ℝ) / 58| < 1 / 10000000000 := by
      rw [abs_of_nonneg (show (0 : ℝ) ≤ 33 / 58 by norm_num)]
      norm_num
    simp only [Lch.to_color, Lab.to_color, Lab.fxv, Lab.fyv, Lab.fzv, XN, YN, ZN]
    rw [if_pos (show |(0 : ℝ)| < 1e-10 by norm_num)]
    norm_num [labFInv]
    simp only [if_neg habs]
    norm_num
  rw [hcol, lch_from_color_h]
  apply hue_of_big_chroma
  rw [lab_from_color_b]
  apply labF_gap
  · simp only [labZ, ZN]
    norm_num
  · simp only [labY, labZ, YN, ZN]
    norm_num
  · simp only [labY, YN]
    norm_num
  · simp only [labY, YN]
    norm_num
  · simp only [labZ, ZN]
    norm_num

/-- Claim C5, counterexample: a value whose hue field is -30 degrees but
whose chroma is degenerate round-trips to hue 0, not to 330: the chroma
guard resets the hue.  So the -30-to-330 normalization does not hold for
every value with hue -30. -/
theorem lch_degenerate_hue_cex :
    (Lch.from_color (Lch.to_color ⟨0, 0, -30, 1⟩)).h = 0 ∧
    ¬ |(Lch.from_color (Lch.to_color ⟨0, 0, -30, 1⟩)).h - 330| ≤ 1 := by
  have hcol : Lch.to_color ⟨0, 0, -30, 1⟩ = ⟨0, 0, 0, 1⟩ := by
    simp only [Lch.to_color, Lab.to_color, Lab.fxv, Lab.fyv, Lab.fzv, XN, YN, ZN]
    rw [if_pos (show |(0 : ℝ)| < 1e-10 by norm_num)]
    norm_num [labFInv]
  have ha : (Lab.from_color ⟨0, 0, 0, 1⟩).a = 0 := by
    rw [lab_from_color_a]
    simp only [labX, labY, XN, YN]
    norm_num [labF]
  have hb : (Lab.from_color ⟨0, 0, 0, 1⟩).b = 0 := by
    rw [lab_from_color_b]
    simp only [labY, labZ, YN, ZN]
    norm_num [labF]
  have hval : (Lch.from_color (Lch.to_color ⟨0, 0, -30, 1⟩)).h = 0 := by
    rw [hcol, lch_from_color_h, ha, hb]
    norm_num [wrapHue]
  refine ⟨hval, ?_⟩
  rw [hval]
  norm_num

/-- Claim C5, amended: the hue reported by `Lch::from_color` and by
`Oklch::from_color` always lies in [0, 360); and the chromatic value
Lch (50, 30, -30, 1) — hue -30 degrees — round-trips through the pivot
to a hue within 0.01 of 330 (a degenerate-chroma value with hue -30
instead has its hue reset to 0, see the counterexample). -/
theorem hue_range_and_neg30_wraps :
    (∀ c : Color, (Lch.from_color c).h ∈ Set.Ico (0 : ℝ) 360 ∧
      (Oklch.from_color c).h ∈ Set.Ico (0 : ℝ) 360) ∧
    |(Lch.from_color (Lch.to_color ⟨50, 30, -30, 1⟩)).h - 330| ≤ 1 / 100 := by
  constructor
  · intro c
    constructor
    · exact Set.mem_Ico.mpr (wrapHue_guard_mem
        (Real.sqrt ((Lab.from_color c).a * (Lab.from_color c).a +
          (Lab.from_color c).b * (Lab.from_color c).b))
        (Lab.from_color c).b (Lab.from_color c).a)
    · exact Set.mem_Ico.mpr (wrapHue_guard_mem
        (Real.sqrt ((Oklab.from_color c).a * (Oklab.from_color c).a +
          (Oklab.from_color c).b * (Oklab.from_color c).b))
        (Oklab.from_color c).b (Oklab.from_color c).a)
  · have hs3 := Real.sq_sqrt (show (0 : ℝ) ≤ 3 by norm_num)
    have hsn := Real.sqrt_nonneg 3
    have hs1 : (1.732050807 : ℝ) ≤ Real.sqrt 3 := by nlinarith
    have hs2 : Real.sqrt 3 ≤ (1.732050809 : ℝ) := by nlinarith
    have hrad : toRadians (-30 : ℝ) = -(Real.pi / 6) := by
      unfold toRadians
      ring
    have hcol1 : Lch.to_color ⟨50, 30, -30, 1⟩ =
        Lab.to_color ⟨50, 15 * Real.sqrt 3, -15, 1⟩ := by
      simp only [Lch.to_color]
      rw [if_neg (by norm_num), hrad, Real.cos_neg, Real.sin_neg,
        Real.cos_pi_div_six, Real.sin_pi_div_six,
        show (30 : ℝ) * (Real.sqrt 3 / 2) = 15 * Real.sqrt 3 by ring,
        show (30 : ℝ) * -(1 / 2) = -15 by norm_num]
    have hfy : labFInv (((50 : ℝ) + 16) / 116) = (((50 : ℝ) + 16) / 116) ^ (3 : ℕ) := by
      unfold labFInv
      rw [if_pos (by norm_num),
        if_neg (by rw [abs_of_nonneg (show (0 : ℝ) ≤ ((50 : ℝ) + 16) / 116 by norm_num)]; norm_num)]
    have hfz : labFInv (((50 : ℝ) + 16) / 116 - -15 / 200) =
        (((50 : ℝ) + 16) / 116 - -15 / 200) ^ (3 : ℕ) := by
      unfold labFInv
      rw [if_pos (by norm_num),
        if_neg (by rw [abs_of_nonneg
          (show (0 : ℝ) ≤ ((50 : ℝ) + 16) / 116 - -15 / 200 by norm_num)]; norm_num)]
    have hfx : labFInv (((50 : ℝ) + 16) / 116 + 15 * Real.sqrt 3 / 500) =
        (((50 : ℝ) + 16) / 116 + 15 * Real.sqrt 3 / 500) ^ (3 : ℕ) := by
      have hc1 : (6 : ℝ) / 29 < ((50 : ℝ) + 16) / 116 + 15 * Real.sqrt 3 / 500 := by
        nlinarith
      have hc2 : ¬ |((50 : ℝ) + 16) / 116 + 15 * Real.sqrt 3 / 500| < 1e-10 := by
        rw [abs_of_nonneg (by positivity)]
        push_neg
        nlinarith
      unfold labFInv
      rw [if_pos hc1, if_neg hc2]
    have hPXlo : (239398663493 / 1000000000000 : ℝ) ≤
        (((50 : ℝ) + 16) / 116 + 15 * Real.sqrt 3 / 500) ^ (3 : ℕ) := by
      calc (239398663493 / 1000000000000 : ℝ)
          ≤ ((33 : ℝ) / 58 + 3 / 100 * 1.732050807) ^ (3 : ℕ) := by norm_num
        _ ≤ (((50 : ℝ) + 16) / 116 + 15 * Real.sqrt 3 / 500) ^ (3 : ℕ) :=
            pow_le_pow_left₀ (by norm_num) (by linarith) 3
    have hPXhi : (((50 : ℝ) + 16) / 116 + 15 * Real.sqrt 3 / 500) ^ (3 : ℕ) ≤
        239398663563 / 1000000000000 := by
      calc (((50 : ℝ) + 16) / 116 + 15 * Real.sqrt 3 / 500) ^ (3 : ℕ)
          ≤ ((33 : ℝ) / 58 + 3 / 100 * 1.732050809) ^ (3 : ℕ) :=
            pow_le_pow_left₀ (by positivity) (by linarith) 3
        _ ≤ 239398663563 / 1000000000000 := by norm_num
    set col : Color :=
      ⟨(1540046541 / 500000000 : ℝ) *
          (((50 : ℝ) + 16) / 116 + 15 * Real.sqrt 3 / 500) ^ (3 : ℕ) -
          334116717064373637 / 780448000000000000,
       (-920910383 / 1000000000 : ℝ) *
          (((50 : ℝ) + 16) / 116 + 15 * Real.sqrt 3 / 500) ^ (3 : ℕ) +
          111624037142407947 / 312179200000000000,
       (52941179 / 1000000000 : ℝ) *
          (((50 : ℝ) + 16) / 116 + 15 * Real.sqrt 3 / 500) ^ (3 : ℕ) +
          42108080828978313 / 156089600000000000, 1⟩ with hcoldef
    have hcol2 : Lab.to_color ⟨50, 15 * Real.sqrt 3, -15, 1⟩ = col := by
      rw [hcoldef]
      simp only [Lab.to_color, Lab.fxv, Lab.fyv, Lab.fzv, XN, YN, ZN]
      rw [hfx, hfy, hfz, Color.mk.injEq]
      refine ⟨by ring, by ring, by ring, rfl⟩
    rw [hcol1, hcol2, lch_from_color_h, lab_from_color_a, lab_from_color_b]
    have ht1 : (2394046736 / 10000000000 : ℝ) ≤ labX col / XN ∧
        labX col / XN ≤ 2394046738 / 10000000000 := by
      rw [hcoldef]
      simp only [labX, XN]
      constructor
      · rw [le_div_iff₀ (by norm_num)]
        linarith [hPXlo, hPXhi]
      · rw [div_le_iff₀ (by norm_num)]
        linarith [hPXlo, hPXhi]
    have ht2 : (1841947072 / 10000000000 : ℝ) ≤ labY col / YN ∧
        labY col / YN ≤ 1841947073 / 10000000000 := by
      rw [hcoldef]
      simp only [labY, YN]
      constructor
      · rw [le_div_iff₀ (by norm_num)]
        linarith [hPXlo, hPXhi]
      · rw [div_le_iff₀ (by norm_num)]
        linarith [hPXlo, hPXhi]
    have ht3 : (2670506508 / 10000000000 : ℝ) ≤ labZ col / ZN ∧
        labZ col / ZN ≤ 2670506509 / 10000000000 := by
      rw [hcoldef]
      simp only [labZ, ZN]
      constructor
      · rw [le_div_iff₀ (by norm_num)]
        linarith [hPXlo, hPXhi]
      · rw [div_le_iff₀ (by norm_num)]
        linarith [hPXlo, hPXhi]
    have hF1 : (62093221 / 100000000 : ℝ) ≤ labF (labX col / XN) ∧
        labF (labX col / XN) ≤ 31046613 / 50000000 :=
      labF_between (by norm_num) (by norm_num) ht1.1 ht1.2 (by norm_num)
        (by norm_num) (by norm_num)
    have hF2 : (3556087 / 6250000 : ℝ) ≤ labF (labY col / YN) ∧
        labF (labY col / YN) ≤ 56897397 / 100000000 :=
      labF_between (by norm_num) (by norm_num) ht2.1 ht2.2 (by norm_num)
        (by norm_num) (by norm_num)
    have hF3 : (16099209 / 25000000 : ℝ) ≤ labF (labZ col / ZN) ∧
        labF (labZ col / ZN) ≤ 64396841 / 100000000 :=
      labF_between (by norm_num) (by norm_num) ht3.1 ht3.2 (by norm_num)
        (by norm_num) (by norm_num)
    exact hue_near_330 (by linarith [hF1.1, hF2.2]) (by linarith [hF1.2, hF2.1])
      (by linarith [hF2.1, hF3.2]) (by linarith [hF2.2, hF3.1])

end ColorLab



